import Mathlib

/-!
Verification of `email_processor.py` (webhook-py).

The Python source is shallowly embedded below.  Strings are modelled as
`List Char`; Python exceptions become `Option`/`Except`; the external
effects of `main` (IMAP commands, HTTP requests) are modelled as a trace
of events produced from an oracle (`World`) that fixes the behaviour of
the mailbox server and the webhook endpoint.
-/

/-! ### Python string primitives used by the source -/

/-- The ASCII whitespace characters recognised by Python's
`str.split()` / `str.strip()` (space, tab, newline, carriage return,
vertical tab, form feed). -/
def isPyWhitespace (c : Char) : Bool :=
  c == ' ' || c == '\t' || c == '\n' || c == '\r' ||
  c == Char.ofNat 11 || c == Char.ofNat 12

/-- The double-quote character test, for Python's `strip('"')`. -/
def isQuote (c : Char) : Bool := c == Char.ofNat 34

/-- The closing-angle-bracket test, for Python's `strip('>')`. -/
def isGtChar (c : Char) : Bool := c == '>'

/-- `l.dropWhile p` from both ends: Python's `str.strip(chars)` where
`p` tests membership in `chars` (or whitespace for plain `strip()`). -/
def pyStripBoth (p : Char → Bool) (l : List Char) : List Char :=
  (((l.dropWhile p).reverse).dropWhile p).reverse

/-- Worker for `pySplit`: `acc` holds the current word reversed. -/
def pySplitGo (acc : List Char) : List Char → List (List Char)
  | [] => if acc = [] then [] else [acc.reverse]
  | c :: cs =>
    if isPyWhitespace c then
      if acc = [] then pySplitGo [] cs else acc.reverse :: pySplitGo [] cs
    else pySplitGo (c :: acc) cs

/-- Python's `str.split()` with no argument: split on runs of
whitespace, never producing empty tokens. -/
def pySplit (s : List Char) : List (List Char) := pySplitGo [] s

/-- Python's `" ".join(parts)`. -/
def joinSpace : List (List Char) → List Char
  | [] => []
  | [t] => t
  | t :: ts => t ++ ' ' :: joinSpace ts

/-- Python's `s.replace(pat, rep, 1)`: replace the first (leftmost)
occurrence of `pat`, scanning left to right; if `pat` does not occur,
the string is unchanged. -/
def pyReplaceFirst (pat rep : List Char) : List Char → List Char
  | [] => if pat.isPrefixOf ([] : List Char) then rep else []
  | c :: cs =>
    if pat.isPrefixOf (c :: cs) then rep ++ (c :: cs).drop pat.length
    else c :: pyReplaceFirst pat rep cs

/-! ### `urllib.parse` scheme extraction (used by `ensure_https_url`) -/

/-- Characters allowed in a URL scheme by `urllib.parse`
(letters, digits, `+`, `-`, `.`). -/
def schemeChar (c : Char) : Bool :=
  c.isAlpha || c.isDigit || c == '+' || c == '-' || c == '.'

/-- Split a string at its first colon: `some (before, after)` when a
colon occurs, `none` otherwise. -/
def splitColon : List Char → Option (List Char × List Char)
  | [] => none
  | c :: cs =>
    if c = ':' then some ([], cs)
    else
      match splitColon cs with
      | none => none
      | some (pre, post) => some (c :: pre, post)

/-- The `scheme` attribute of `urllib.parse.urlparse`: the lowercased
text before the first colon, provided it is non-empty, starts with a
letter and consists of scheme characters; otherwise the empty string. -/
def urlScheme (url : List Char) : List Char :=
  match splitColon url with
  | none => []
  | some (pre, _) =>
    match pre with
    | [] => []
    | c0 :: rest =>
      if c0.isAlpha && (c0 :: rest).all schemeChar then
        (c0 :: rest).map Char.toLower
      else []

/-! ### Embedded source functions -/

/-- `process_name` (email_processor.py, lines 36-41): split a full name
into first and last name. -/
def process_name (full_name : List Char) : List Char × List Char :=
  let parts := pySplit full_name
  ((match parts with | [] => [] | t :: _ => t),
   if 1 < parts.length then joinSpace (parts.drop 1) else [])

/-- `ensure_https_url` (email_processor.py, lines 43-48): if the parsed
scheme is not `https`, replace the first literal `http://` with
`https://`; otherwise return the URL unchanged. -/
def ensure_https_url (url : List Char) : List Char :=
  if urlScheme url ≠ "https".toList then
    pyReplaceFirst ("http://".toList) ("https://".toList) url
  else url

/-- `from_header.split('<')[0]`: the text before the first `<`. -/
def beforeLt (l : List Char) : List Char := l.takeWhile (fun c => c != '<')

/-- `from_header.split('<')[1]`: the text between the first `<` and the
next `<` (or the end of the string). -/
def betweenLt (l : List Char) : List Char :=
  ((l.dropWhile (fun c => c != '<')).drop 1).takeWhile (fun c => c != '<')

/-- Sender extraction inlined in `main` (email_processor.py, lines
124-131): with a `<` present, the display name is the text before it,
stripped of whitespace then of double quotes, and the address is
`split('<')[1].strip('>')`; otherwise the name is empty and the address
is the stripped header. -/
def extract_sender (from_header : List Char) : List Char × List Char :=
  if '<' ∈ from_header then
    (pyStripBoth isQuote (pyStripBoth isPyWhitespace (beforeLt from_header)),
     pyStripBoth isGtChar (betweenLt from_header))
  else ([], pyStripBoth isPyWhitespace from_header)

/-! ### MIME messages and `get_email_body` -/

/-- A parsed MIME message as seen through the `email.message.Message`
interface used by the source: a non-multipart message carries a decoded
payload, a multipart one carries sub-parts.  `ctype` is the value of
`get_content_type()`. -/
inductive PyMsg where
  | leaf (ctype : List Char) (payload : List Char)
  | multi (ctype : List Char) (parts : List PyMsg)

/-- `msg.is_multipart()`. -/
def is_multipart : PyMsg → Bool
  | PyMsg.leaf _ _ => false
  | PyMsg.multi _ _ => true

/-- `msg.get_content_type()`. -/
def get_content_type : PyMsg → List Char
  | PyMsg.leaf ct _ => ct
  | PyMsg.multi ct _ => ct

/-- `msg.get_payload(decode=True)` followed by `.decode()`: a leaf
yields its payload; on a multipart container `get_payload(decode=True)`
is `None`, so the `.decode()` call raises (`none`). -/
def get_payload_decoded : PyMsg → Option (List Char)
  | PyMsg.leaf _ p => some p
  | PyMsg.multi _ _ => none

mutual

/-- `msg.walk()`: depth-first preorder traversal, the message itself
first, then each sub-part recursively. -/
def walk : PyMsg → List PyMsg
  | PyMsg.leaf ct p => [PyMsg.leaf ct p]
  | PyMsg.multi ct parts => PyMsg.multi ct parts :: walkList parts

def walkList : List PyMsg → List PyMsg
  | [] => []
  | m :: ms => walk m ++ walkList ms

end

/-- The `for part in msg.walk()` loop body (email_processor.py, lines
29-33): return on the first part whose content type is `text/html` or
`text/plain`.  `none` = the loop finished without returning;
`some r` = the loop returned, with `r` the value of the return
expression (`none` inside when `.decode()` raised). -/
def scan_parts : List PyMsg → Option (Option (List Char))
  | [] => none
  | p :: ps =>
    if get_content_type p = "text/html".toList then
      some (get_payload_decoded p)
    else if get_content_type p = "text/plain".toList then
      some (get_payload_decoded p)
    else scan_parts ps

/-- `get_email_body` (email_processor.py, lines 26-34).  `none` models
an uncaught exception inside the function. -/
def get_email_body (msg : PyMsg) : Option (List Char) :=
  if is_multipart msg then
    match scan_parts (walk msg) with
    | some r => r
    | none => get_payload_decoded msg
  else get_payload_decoded msg

/-! ### Header decoding (`decode_str`) -/

/-- One fragment of the list returned by the external
`email.header.decode_header`: either an already-decoded text fragment
or a byte fragment with an optional charset token. -/
inductive HeaderFragment where
  | txt (s : List Char)
  | bytes (b : List Nat) (charset : Option (List Char))

/-- Decoding bytes under a named charset is external library behaviour;
it is passed in as a `codec` argument (charset name, then bytes). -/
def fragmentCharset (cs : Option (List Char)) : List Char :=
  match cs with
  | none => "utf-8".toList
  | some c => if c = [] then "utf-8".toList else c

/-- `decode_str` (email_processor.py, lines 19-24), expressed over the
fragment list produced by `decode_header`: take fragment `[0]` only; if
it is bytes, decode it with its charset (`charset or 'utf-8'`), else
return it as-is.  `none` models the `IndexError` on an empty list. -/
def decode_str (codec : List Char → List Nat → List Char) :
    List HeaderFragment → Option (List Char)
  | [] => none
  | HeaderFragment.txt s :: _ => some s
  | HeaderFragment.bytes b cs :: _ => some (codec (fragmentCharset cs) b)

/-- Modelled from the spec: "resolves any non-ASCII header encoding to
a single decoded string" covering the whole header — every fragment is
decoded and the results are concatenated.  (The hypothetical
whole-header decoder; the source takes fragment `[0]` only.) -/
def decode_header_spec (codec : List Char → List Nat → List Char)
    (frags : List HeaderFragment) : List Char :=
  (frags.map (fun f =>
    match f with
    | HeaderFragment.txt s => s
    | HeaderFragment.bytes b cs => codec (fragmentCharset cs) b)).flatten

/-! ### `send_webhook_request` -/

/-- One HTTP call made by `send_webhook_request`, with its target URL. -/
inductive WebEv where
  | options_req (url : List Char)
  | post_req (url : List Char)
deriving DecidableEq

/-- `send_webhook_request` (email_processor.py, lines 50-83), with the
two `requests` calls modelled by their oracle results (`Except.error`
= the library call raised a transport-level exception, `Except.ok s` =
it returned a response with status `s`).  The value is the list of HTTP
calls actually issued plus the outcome of the function (`Except.error`
= the exception propagated to the caller). -/
def send_webhook_request (url : List Char)
    (preRes postRes : Except Unit Nat) : List WebEv × Except Unit Nat :=
  let u := ensure_https_url url
  match preRes with
  | Except.error e => ([WebEv.options_req u], Except.error e)
  | Except.ok _ =>
    match postRes with
    | Except.error e => ([WebEv.options_req u, WebEv.post_req u], Except.error e)
    | Except.ok s => ([WebEv.options_req u, WebEv.post_req u], Except.ok s)

/-! ### The run of `main` as an event trace -/

/-- Observable steps of one run of `main`. -/
inductive Ev where
  | connect
  | logged_in
  | login_failed
  | selected
  | searched
  | fetch (n : Nat)
  | web (n : Nat) (e : WebEv)
  | store (n : Nat)
  | marked (n : Nat)
  | logout
  | aborted (code : Nat)
deriving DecidableEq

/-- Oracle fixing the behaviour of the external world during one run:
login outcome, whether `mail.select` and `mail.search` complete without
raising, the unread message numbers reported by `search`, and, per
message number, the outcome of fetch-and-decode, of the preflight
`OPTIONS`, of the `POST`, and of `store`. -/
structure World where
  loginOk : Bool
  selectOk : Bool
  searchOk : Bool
  url : List Char
  unread : List Nat
  fetchDecode : Nat → Except Unit Unit
  preflightR : Nat → Except Unit Nat
  postR : Nat → Except Unit Nat
  storeR : Nat → Except Unit Unit

/-- The HTTP calls of `send_webhook_request` for message `n`, tagged. -/
def dispatchEvents (w : World) (n : Nat) : List Ev :=
  (send_webhook_request w.url (w.preflightR n) (w.postR n)).1.map (Ev.web n)

/-- What happens after `send_webhook_request` returns for message `n`
(email_processor.py, lines 148-156): if it raised, nothing (the
per-message handler catches); if `response.status_code == 200`, the
`store` call is issued (and the "marked" print happens only when
`store` does not raise); any other status only logs. -/
def afterDispatch (w : World) (n : Nat) : List Ev :=
  match (send_webhook_request w.url (w.preflightR n) (w.postR n)).2 with
  | Except.error _ => []
  | Except.ok s =>
    if s = 200 then
      Ev.store n ::
        (match w.storeR n with
         | Except.error _ => []
         | Except.ok _ => [Ev.marked n])
    else []

/-- The per-message `try` body (email_processor.py, lines 117-160):
fetch, decode and extract (any exception there is caught and the loop
continues), then dispatch and conditionally mark read.  Every exception
raised inside is absorbed by the `except` / `continue`. -/
def perMsg (w : World) (n : Nat) : List Ev :=
  Ev.fetch n ::
    (match w.fetchDecode n with
     | Except.error _ => []
     | Except.ok _ => dispatchEvents w n ++ afterDispatch w n)

/-- The trace of one run of `main` (email_processor.py, lines 85-167):
connect; on login failure print and `sys.exit(1)` (no logout); if
`mail.select` or `mail.search` raises after a successful login, the
exception reaches the outer `except Exception` handler, which prints
and calls `sys.exit(1)` — again without any logout; otherwise either
the empty-inbox path (logout and return) or the message loop followed
by logout. -/
def runMain (w : World) : List Ev :=
  Ev.connect ::
    (if w.loginOk then
      Ev.logged_in ::
        (if w.selectOk then
          Ev.selected ::
            (if w.searchOk then
              Ev.searched ::
                (if w.unread = [] then [Ev.logout]
                 else ((w.unread.map (perMsg w)).flatten ++ [Ev.logout]))
            else [Ev.aborted 1])
        else [Ev.aborted 1])
    else [Ev.login_failed, Ev.aborted 1])

/-! ### Concrete fixtures used by the witness and counterexample
theorems -/

/-- A `multipart/alternative` message whose plain-text part precedes
its HTML part — the usual layout of real alternative messages. -/
def demoMsg : PyMsg :=
  PyMsg.multi ("multipart/alternative".toList)
    [PyMsg.leaf ("text/plain".toList) ("hi".toList),
     PyMsg.leaf ("text/html".toList) ("<p>hi</p>".toList)]

/-- A codec decoding each byte as the character with that code point
(enough to exercise `decode_str` on ASCII payloads). -/
def asciiCodec : List Char → List Nat → List Char :=
  fun _ b => b.map Char.ofNat

/-- A header that `decode_header` split into two byte fragments:
`AB` then `CD`. -/
def demoFrags : List HeaderFragment :=
  [HeaderFragment.bytes [65, 66] none,
   HeaderFragment.bytes [67, 68] none]

/-- A URL with a non-http scheme and two later literal `http://`
occurrences. -/
def cexUrl : List Char := "ftp://x?a=http://b&c=http://d".toList

/-- A run in which login fails. -/
def wLoginFail : World :=
  { loginOk := false
    selectOk := true
    searchOk := true
    url := "https://h.example/t".toList
    unread := []
    fetchDecode := fun _ => Except.ok ()
    preflightR := fun _ => Except.ok 200
    postR := fun _ => Except.ok 200
    storeR := fun _ => Except.ok () }

/-- A run with two unread messages where the endpoint answers 200 for
message 1 and 500 for message 2. -/
def wDemo : World :=
  { loginOk := true
    selectOk := true
    searchOk := true
    url := "https://h.example/t".toList
    unread := [1, 2]
    fetchDecode := fun _ => Except.ok ()
    preflightR := fun _ => Except.ok 204
    postR := fun k => if k = 1 then Except.ok 200 else Except.ok 500
    storeR := fun _ => Except.ok () }

/-- A run with two unread messages where dispatch succeeds everywhere
but the `store` call for message 1 raises. -/
def wStoreFail : World :=
  { loginOk := true
    selectOk := true
    searchOk := true
    url := "https://h.example/t".toList
    unread := [1, 2]
    fetchDecode := fun _ => Except.ok ()
    preflightR := fun _ => Except.ok 204
    postR := fun _ => Except.ok 200
    storeR := fun k => if k = 1 then Except.error () else Except.ok () }

/-! ## Helper lemmas -/

/-- `str.split()` of an all-whitespace string is empty. -/
theorem pySplitGo_nil_of_ws (s : List Char)
    (h : ∀ c ∈ s, isPyWhitespace c = true) : pySplitGo [] s = [] := by
  induction s with
  | nil => rfl
  | cons c cs ih =>
    have hc := h c (List.mem_cons_self c cs)
    simp [pySplitGo, hc, ih (fun x hx => h x (List.mem_cons_of_mem _ hx))]

/-! ## Claims -/

/-- Claim C1, evaluated at the failing input: on a multipart message
whose plain-text part precedes its HTML part, `get_email_body` returns
the plain-text payload, not the HTML payload that the claim (and the
function's own docstring, "preferring HTML content") requires. -/
theorem C1_plain_first_wins :
    get_email_body demoMsg = some ("hi".toList) ∧
    get_email_body demoMsg ≠ some ("<p>hi</p>".toList) := by
  decide

/-- Claim C5: `process_name` maps a name whose whitespace-separated
tokens are `t :: ts` to first name `t` and last name `ts` joined by
single spaces, and an empty or all-whitespace name to two empty
fields. -/
theorem C5_process_name_tokens :
    (∀ s t ts, pySplit s = t :: ts → process_name s = (t, joinSpace ts)) ∧
    (∀ s, (∀ c ∈ s, isPyWhitespace c = true) → process_name s = ([], [])) := by
  constructor
  · intro s t ts h
    simp only [process_name, h]
    cases ts with
    | nil => simp [joinSpace]
    | cons a as => simp [joinSpace]
  · intro s h
    have hs : pySplit s = [] := pySplitGo_nil_of_ws s h
    simp [process_name, hs]

/-- Witness for C5 at the name "Jane Mary Doe". -/
theorem C5_process_name_witness :
    process_name ("Jane Mary Doe".toList) =
      ("Jane".toList, "Mary Doe".toList) := by
  have h := C5_process_name_tokens.1 ("Jane Mary Doe".toList) ("Jane".toList)
    ["Mary".toList, "Doe".toList] (by decide)
  rw [h]
  decide

/-- Claim C4 counterexample: when the preflight `OPTIONS` call raises a
transport-level exception, `send_webhook_request` issues no `POST` at
all — the only HTTP call in the trace is the `OPTIONS`. -/
theorem C4_preflight_error_blocks_post :
    (send_webhook_request ("https://h.example/t".toList)
        (Except.error ()) (Except.ok 200)).1 =
      [WebEv.options_req ("https://h.example/t".toList)] := by
  decide

/-- Claim C4 as amended: whatever HTTP status the preflight returns,
the `POST` to the normalized endpoint is still issued (only a raised
preflight exception prevents it). -/
theorem C4_post_follows_any_preflight_status :
    ∀ (url : List Char) (s : Nat) (postRes : Except Unit Nat),
      WebEv.post_req (ensure_https_url url) ∈
        (send_webhook_request url (Except.ok s) postRes).1 := by
  intro url s postRes
  cases postRes <;> simp [send_webhook_request]

/-- Claim C8 counterexample: on a header whose decoder output has two
byte fragments, `decode_str` returns only the first fragment decoded,
not a string covering the whole header. -/
theorem C8_first_fragment_only_cex :
    decode_str asciiCodec demoFrags = some ("AB".toList) ∧
    decode_str asciiCodec demoFrags ≠
      some (decode_header_spec asciiCodec demoFrags) := by
  decide

/-- Claim C8 as amended: `decode_str` returns the decoded text of the
first decoder fragment only — a text fragment as-is, a byte fragment
decoded with its charset, defaulting to UTF-8 when the charset is
missing (or empty, by `charset or 'utf-8'`). -/
theorem C8_decode_first_fragment :
    (∀ codec s rest,
        decode_str codec (HeaderFragment.txt s :: rest) = some s) ∧
    (∀ codec b rest,
        decode_str codec (HeaderFragment.bytes b none :: rest) =
          some (codec ("utf-8".toList) b)) ∧
    (∀ codec b cs rest,
        decode_str codec (HeaderFragment.bytes b (some cs) :: rest) =
          some (codec (if cs = [] then "utf-8".toList else cs) b)) :=
  ⟨fun _ _ _ => rfl, fun _ _ _ => rfl, fun _ _ _ _ => rfl⟩

/-- Claim C10: the `http://` rewrite of `ensure_https_url` is
case-sensitive (a URL with uppercase `HTTP://` is returned unchanged)
and limited to the first literal occurrence (a later `http://` in the
query string is preserved). -/
theorem C10_case_sensitive_first_only :
    ensure_https_url ("HTTP://h.example/t".toList) =
      "HTTP://h.example/t".toList ∧
    ensure_https_url ("http://a.example/p?next=http://b.example/q".toList) =
      "https://a.example/p?next=http://b.example/q".toList := by
  decide

/-- Claim C7 counterexample: `ensure_https_url` is not idempotent on
all inputs — on a `ftp`-scheme URL containing two literal `http://`
occurrences, a second application rewrites the second occurrence. -/
theorem C7_not_idempotent_cex :
    ensure_https_url (ensure_https_url cexUrl) ≠ ensure_https_url cexUrl := by
  decide

/-- `splitColon` finds the first colon. -/
theorem splitColon_append (pre : List Char) (hp : ':' ∉ pre) (r : List Char) :
    splitColon (pre ++ ':' :: r) = some (pre, r) := by
  induction pre with
  | nil => simp [splitColon]
  | cons c cs ih =>
    have hc : ¬ c = ':' := by rintro rfl; exact hp (List.mem_cons_self _ _)
    have hcs : ':' ∉ cs := fun h => hp (List.mem_cons_of_mem _ h)
    simp [splitColon, hc, ih hcs]

/-- Any string headed by `https:` parses to scheme `https`. -/
theorem urlScheme_https (r : List Char) :
    urlScheme ("https".toList ++ ':' :: r) = "https".toList := by
  unfold urlScheme
  rw [splitColon_append _ (by decide) r]
  rfl

/-- Any string headed by `http:` parses to scheme `http`. -/
theorem urlScheme_http (r : List Char) :
    urlScheme ("http".toList ++ ':' :: r) = "http".toList := by
  unfold urlScheme
  rw [splitColon_append _ (by decide) r]
  rfl

/-- On a URL whose parsed scheme is already `https`, `ensure_https_url`
is the identity. -/
theorem ensure_https_url_of_scheme_https (u : List Char)
    (h : urlScheme u = "https".toList) : ensure_https_url u = u := by
  simp [ensure_https_url, h]

/-- A pattern is a prefix of itself followed by anything. -/
theorem isPrefixOf_append_self (pat r : List Char) :
    pat.isPrefixOf (pat ++ r) = true := by
  simp only [List.isPrefixOf_iff_prefix]
  exact List.prefix_append pat r

/-- `str.replace(pat, rep, 1)` on a string starting with the pattern
rewrites it at position zero. -/
theorem pyReplaceFirst_at_start (pat rep s : List Char)
    (h : pat.isPrefixOf s = true) :
    pyReplaceFirst pat rep s = rep ++ s.drop pat.length := by
  cases s with
  | nil =>
    have hp : pat = [] := by
      cases pat with
      | nil => rfl
      | cons c cs => simp [List.isPrefixOf] at h
    subst hp
    simp [pyReplaceFirst]
  | cons c cs => simp [pyReplaceFirst, h]

/-- Claim C7 as amended: `ensure_https_url` maps the insecure example
URL to its `https` form, returns any URL whose parsed scheme is already
`https` unchanged, and is idempotent on every URL beginning with the
literal prefix `http://` or `https://`; it is not idempotent on
arbitrary inputs (see the counterexample). -/
theorem C7_normalize_amended :
    ensure_https_url ("http://h.example/t".toList) =
      "https://h.example/t".toList ∧
    (∀ u, urlScheme u = "https".toList → ensure_https_url u = u) ∧
    (∀ r, ensure_https_url (ensure_https_url ("http://".toList ++ r)) =
        ensure_https_url ("http://".toList ++ r)) ∧
    (∀ r, ensure_https_url (ensure_https_url ("https://".toList ++ r)) =
        ensure_https_url ("https://".toList ++ r)) := by
  refine ⟨by decide, ensure_https_url_of_scheme_https, ?_, ?_⟩
  · intro r
    have hs : urlScheme ("http://".toList ++ r) = "http".toList := by
      have e : "http://".toList ++ r = "http".toList ++ ':' :: ('/' :: '/' :: r) := rfl
      rw [e, urlScheme_http]
    have h1 : ensure_https_url ("http://".toList ++ r) =
        "https://".toList ++ r := by
      simp only [ensure_https_url, hs, if_pos (by decide : "http".toList ≠ "https".toList)]
      rw [pyReplaceFirst_at_start _ _ _ (isPrefixOf_append_self _ r),
        List.drop_left]
    have hs2 : urlScheme ("https://".toList ++ r) = "https".toList := by
      have e : "https://".toList ++ r = "https".toList ++ ':' :: ('/' :: '/' :: r) := rfl
      rw [e, urlScheme_https]
    rw [h1, ensure_https_url_of_scheme_https _ hs2]
  · intro r
    have hs2 : urlScheme ("https://".toList ++ r) = "https".toList := by
      have e : "https://".toList ++ r = "https".toList ++ ':' :: ('/' :: '/' :: r) := rfl
      rw [e, urlScheme_https]
    have h := ensure_https_url_of_scheme_https _ hs2
    rw [h]
    exact h

/-- Witness for C7 at a URL that already uses `https`. -/
theorem C7_normalize_witness :
    ensure_https_url ("https://h.example/t".toList) =
      "https://h.example/t".toList :=
  C7_normalize_amended.2.1 _ (by decide)

/-- `takeWhile` keeps exactly a satisfying prefix up to the first
failing element. -/
theorem takeWhile_append_of (p : Char → Bool) (pre : List Char)
    (h : ∀ c ∈ pre, p c = true) (c : Char) (hc : p c = false)
    (rest : List Char) : ((pre ++ c :: rest).takeWhile p) = pre := by
  induction pre with
  | nil => simp [List.takeWhile_cons, hc]
  | cons a as ih =>
    have ha := h a (List.mem_cons_self a as)
    simp [List.takeWhile_cons, ha,
      ih (fun x hx => h x (List.mem_cons_of_mem _ hx))]

/-- `dropWhile` drops exactly a satisfying prefix up to the first
failing element. -/
theorem dropWhile_append_of (p : Char → Bool) (pre : List Char)
    (h : ∀ c ∈ pre, p c = true) (c : Char) (hc : p c = false)
    (rest : List Char) : ((pre ++ c :: rest).dropWhile p) = c :: rest := by
  induction pre with
  | nil => simp [List.dropWhile_cons, hc]
  | cons a as ih =>
    have ha := h a (List.mem_cons_self a as)
    simp [List.dropWhile_cons, ha,
      ih (fun x hx => h x (List.mem_cons_of_mem _ hx))]

/-- `takeWhile` keeps a list all of whose elements satisfy `p`. -/
theorem takeWhile_eq_self_of (p : Char → Bool) (l : List Char)
    (h : ∀ c ∈ l, p c = true) : l.takeWhile p = l := by
  induction l with
  | nil => rfl
  | cons a as ih =>
    simp [List.takeWhile_cons, h a (List.mem_cons_self a as),
      ih (fun x hx => h x (List.mem_cons_of_mem _ hx))]

/-- `dropWhile` keeps a list whose head fails `p`. -/
theorem dropWhile_eq_self_of (p : Char → Bool) (l : List Char)
    (h : ∀ c ∈ l, p c = false) : l.dropWhile p = l := by
  cases l with
  | nil => rfl
  | cons a as => simp [List.dropWhile_cons, h a (List.mem_cons_self a as)]

/-- Stripping characters none of which occur is the identity. -/
theorem pyStripBoth_eq_self_of (p : Char → Bool) (l : List Char)
    (h : ∀ c ∈ l, p c = false) : pyStripBoth p l = l := by
  unfold pyStripBoth
  rw [dropWhile_eq_self_of p l h,
    dropWhile_eq_self_of p l.reverse (fun c hc => h c (List.mem_reverse.mp hc)),
    List.reverse_reverse]

/-- Stripping a single trailing sentinel character from a list that
contains no stripped character elsewhere. -/
theorem pyStripBoth_append_sentinel (p : Char → Bool) (l : List Char)
    (h : ∀ c ∈ l, p c = false) (c : Char) (hc : p c = true) :
    pyStripBoth p (l ++ [c]) = l := by
  cases l with
  | nil => simp [pyStripBoth, List.dropWhile_cons, hc]
  | cons a as =>
    have ha : p a = false := h a (List.mem_cons_self a as)
    unfold pyStripBoth
    have h1 : ((a :: as) ++ [c]).dropWhile p = (a :: as) ++ [c] := by
      simp [List.dropWhile_cons, ha]
    rw [h1]
    have h2 : ((a :: as) ++ [c]).reverse = c :: (a :: as).reverse := by
      simp
    rw [h2, List.dropWhile_cons_of_pos (by simp [hc]),
      dropWhile_eq_self_of p (a :: as).reverse
        (fun x hx => h x (List.mem_reverse.mp hx)),
      List.reverse_reverse]

/-- Claim C6 counterexample: the header "Jane <jane@x.com> " contains
an address delimited by angle brackets, but because the code computes
the address as `split('<')[1].strip('>')`, the text after the closing
bracket survives: the address comes out as "jane@x.com> " (with the
bracket and the trailing blank), not the bracket-enclosed
"jane@x.com". -/
theorem C6_trailing_text_cex :
    extract_sender ("Jane <jane@x.com> ".toList) =
      ("Jane".toList, "jane@x.com> ".toList) ∧
    ("jane@x.com> ".toList ≠ "jane@x.com".toList) := by
  decide

/-- Claim C6 as amended: on a header of the exact shape `name<addr>`
(text before the bracket with no further `<`, then the address with no
angle brackets, then the closing `>` ending the header),
`extract_sender` yields the name stripped of surrounding whitespace and
double quotes together with the enclosed address; on a header with no
`<` at all it yields an empty name and the whitespace-stripped header.
Headers containing `<` in any other arrangement follow the raw
`split('<')[1].strip('>')` computation instead (see the
counterexample). -/
theorem C6_extract_sender_spec :
    (∀ pre addr, '<' ∉ pre → '<' ∉ addr → '>' ∉ addr →
        extract_sender (pre ++ '<' :: (addr ++ ['>'])) =
          (pyStripBoth isQuote (pyStripBoth isPyWhitespace pre), addr)) ∧
    (∀ h, '<' ∉ h →
        extract_sender h = ([], pyStripBoth isPyWhitespace h)) := by
  constructor
  · intro pre addr hpre haddr hgt
    have hmem : '<' ∈ pre ++ '<' :: (addr ++ ['>']) := by simp
    rw [extract_sender, if_pos hmem]
    have h1 : beforeLt (pre ++ '<' :: (addr ++ ['>'])) = pre := by
      apply takeWhile_append_of
      · intro c hc
        simp only [bne_iff_ne, ne_eq, decide_eq_true_eq]
        rintro rfl; exact hpre hc
      · simp
    have h2 : betweenLt (pre ++ '<' :: (addr ++ ['>'])) = addr ++ ['>'] := by
      unfold betweenLt
      rw [dropWhile_append_of _ pre
        (fun c hc => by
          simp only [bne_iff_ne, ne_eq, decide_eq_true_eq]
          rintro rfl; exact hpre hc)
        '<' (by simp) _]
      simp only [List.drop_succ_cons, List.drop_zero]
      apply takeWhile_eq_self_of
      intro c hc
      rcases List.mem_append.mp hc with h | h
      · simp only [bne_iff_ne, ne_eq, decide_eq_true_eq]
        rintro rfl; exact haddr h
      · simp only [List.mem_singleton] at h
        subst h; simp
    have h3 : pyStripBoth isGtChar (addr ++ ['>']) = addr := by
      apply pyStripBoth_append_sentinel
      · intro c hc
        simp only [isGtChar, beq_eq_false_iff_ne, ne_eq]
        rintro rfl; exact hgt hc
      · simp [isGtChar]
    rw [h1, h2, h3]
  · intro h hn
    rw [extract_sender, if_neg hn]

/-- Witness for C6 at the spec's two example headers. -/
theorem C6_extract_sender_witness :
    extract_sender ("Jane Doe <jane@x.com>".toList) =
      ("Jane Doe".toList, "jane@x.com".toList) ∧
    extract_sender ("jane@x.com".toList) = ([], "jane@x.com".toList) := by
  constructor
  · have h := C6_extract_sender_spec.1 ("Jane Doe ".toList)
      ("jane@x.com".toList) (by decide) (by decide) (by decide)
    have e : "Jane Doe ".toList ++ '<' :: ("jane@x.com".toList ++ ['>']) =
        "Jane Doe <jane@x.com>".toList := by decide
    rw [e] at h
    rw [h]
    decide
  · have h := C6_extract_sender_spec.2 ("jane@x.com".toList) (by decide)
    rw [h]
    decide

/-! ## Run-trace lemmas for the `main` loop -/

/-- Membership of a `store` event in one message's trace is equivalent
to: the pipeline for that message reached the dispatch, and the `POST`
returned exactly status 200. -/
theorem store_mem_perMsg_iff (w : World) (n k : Nat) :
    Ev.store k ∈ perMsg w n ↔
      (k = n ∧ w.fetchDecode n = Except.ok () ∧
        (∃ p, w.preflightR n = Except.ok p) ∧
        w.postR n = Except.ok 200) := by
  unfold perMsg
  rcases hf : w.fetchDecode n with u | u
  · cases u
    simp [hf]
  · cases u
    rcases hp : w.preflightR n with e | p
    · cases e
      simp [dispatchEvents, afterDispatch, send_webhook_request, hf, hp]
    · rcases hq : w.postR n with e | s
      · cases e
        simp [dispatchEvents, afterDispatch, send_webhook_request, hf, hp, hq]
      · by_cases hs : s = 200
        · subst hs
          rcases hst : w.storeR n with e | u2
          · cases e
            simp [dispatchEvents, afterDispatch, send_webhook_request,
              hf, hp, hq, hst]
          · cases u2
            simp [dispatchEvents, afterDispatch, send_webhook_request,
              hf, hp, hq, hst]
        · simp [dispatchEvents, afterDispatch, send_webhook_request,
            hf, hp, hq, hs]

/-- Membership of a `marked` event (the "Marked email as read" print)
additionally requires the `store` call not to raise. -/
theorem marked_mem_perMsg_iff (w : World) (n k : Nat) :
    Ev.marked k ∈ perMsg w n ↔
      (k = n ∧ w.fetchDecode n = Except.ok () ∧
        (∃ p, w.preflightR n = Except.ok p) ∧
        w.postR n = Except.ok 200 ∧ w.storeR n = Except.ok ()) := by
  unfold perMsg
  rcases hf : w.fetchDecode n with u | u
  · cases u
    simp [hf]
  · cases u
    rcases hp : w.preflightR n with e | p
    · cases e
      simp [dispatchEvents, afterDispatch, send_webhook_request, hf, hp]
    · rcases hq : w.postR n with e | s
      · cases e
        simp [dispatchEvents, afterDispatch, send_webhook_request, hf, hp, hq]
      · by_cases hs : s = 200
        · subst hs
          rcases hst : w.storeR n with e | u2
          · cases e
            simp [dispatchEvents, afterDispatch, send_webhook_request,
              hf, hp, hq, hst]
          · cases u2
            simp [dispatchEvents, afterDispatch, send_webhook_request,
              hf, hp, hq, hst]
        · simp [dispatchEvents, afterDispatch, send_webhook_request,
            hf, hp, hq, hs]

/-- No message trace contains the `logout` event. -/
theorem logout_not_mem_perMsg (w : World) (n : Nat) :
    Ev.logout ∉ perMsg w n := by
  unfold perMsg
  rcases hf : w.fetchDecode n with u | u
  · cases u
    simp
  · cases u
    rcases hp : w.preflightR n with e | p
    · cases e
      simp [dispatchEvents, afterDispatch, send_webhook_request, hp]
    · rcases hq : w.postR n with e | s
      · cases e
        simp [dispatchEvents, afterDispatch, send_webhook_request, hp, hq]
      · by_cases hs : s = 200
        · subst hs
          rcases hst : w.storeR n with e | u2
          · cases e
            simp [dispatchEvents, afterDispatch, send_webhook_request,
              hp, hq, hst]
          · cases u2
            simp [dispatchEvents, afterDispatch, send_webhook_request,
              hp, hq, hst]
        · simp [dispatchEvents, afterDispatch, send_webhook_request,
            hp, hq, hs]

/-- Every message is fetched (the fetch happens before anything that
can fail inside the per-message handler). -/
theorem fetch_mem_perMsg_self (w : World) (n : Nat) :
    Ev.fetch n ∈ perMsg w n := by
  unfold perMsg
  exact List.mem_cons_self _ _

/-- Events of a message trace lift into the run trace when the session
setup (login, select, search) succeeded and the message is among the
unread ones. -/
theorem mem_runMain_of_perMsg (w : World) (h : w.loginOk = true)
    (h2 : w.selectOk = true) (h3 : w.searchOk = true)
    (n : Nat) (hn : n ∈ w.unread) (e : Ev) (he : e ∈ perMsg w n) :
    e ∈ runMain w := by
  have hne : ¬ w.unread = [] := by
    intro h0
    rw [h0] at hn
    exact absurd hn (List.not_mem_nil n)
  simp only [runMain, h, h2, h3, if_true, if_neg hne]
  apply List.mem_cons_of_mem
  apply List.mem_cons_of_mem
  apply List.mem_cons_of_mem
  apply List.mem_cons_of_mem
  apply List.mem_append_left
  rw [List.mem_flatten]
  exact ⟨perMsg w n, List.mem_map_of_mem _ hn, he⟩

/-- A `store` event occurs in the run trace only through some message's
trace. -/
theorem store_mem_runMain_iff (w : World) (k : Nat)
    (h : w.loginOk = true) (h2 : w.selectOk = true)
    (h3 : w.searchOk = true) :
    Ev.store k ∈ runMain w ↔ ∃ n ∈ w.unread, Ev.store k ∈ perMsg w n := by
  by_cases hne : w.unread = []
  · simp [runMain, h, h2, h3, hne]
  · simp [runMain, h, h2, h3, hne, List.mem_flatten, List.mem_map]

/-- A `marked` event occurs in the run trace only through some
message's trace. -/
theorem marked_mem_runMain_iff (w : World) (k : Nat)
    (h : w.loginOk = true) (h2 : w.selectOk = true)
    (h3 : w.searchOk = true) :
    Ev.marked k ∈ runMain w ↔ ∃ n ∈ w.unread, Ev.marked k ∈ perMsg w n := by
  by_cases hne : w.unread = []
  · simp [runMain, h, h2, h3, hne]
  · simp [runMain, h, h2, h3, hne, List.mem_flatten, List.mem_map]

/-- On every run whose session setup succeeds, `logout` appears exactly
once in the trace, whatever happens inside the message loop. -/
theorem count_logout_runMain (w : World) (h : w.loginOk = true)
    (h2 : w.selectOk = true) (h3 : w.searchOk = true) :
    (runMain w).count Ev.logout = 1 := by
  by_cases hne : w.unread = []
  · simp [runMain, h, h2, h3, hne]
  · have hj : Ev.logout ∉ (w.unread.map (perMsg w)).flatten := by
      rw [List.mem_flatten]
      rintro ⟨l, hl, hel⟩
      rw [List.mem_map] at hl
      rcases hl with ⟨n, _, rfl⟩
      exact logout_not_mem_perMsg w n hel
    simp [runMain, h, h2, h3, hne, List.count_cons, List.count_append,
      List.count_eq_zero.mpr hj]

/-- When login fails, the run aborts with no `logout` in the trace. -/
theorem count_logout_login_fail (w : World) (h : w.loginOk = false) :
    (runMain w).count Ev.logout = 0 := by
  simp [runMain, h, List.count_cons]

/-- When `mail.select` raises after a successful login, the outer
handler exits the process with no `logout` in the trace. -/
theorem count_logout_select_fail (w : World) (h : w.loginOk = true)
    (h2 : w.selectOk = false) :
    (runMain w).count Ev.logout = 0 := by
  simp [runMain, h, h2, List.count_cons]

/-- When `mail.search` raises after login and select, the outer handler
exits the process with no `logout` in the trace. -/
theorem count_logout_search_fail (w : World) (h : w.loginOk = true)
    (h2 : w.selectOk = true) (h3 : w.searchOk = false) :
    (runMain w).count Ev.logout = 0 := by
  simp [runMain, h, h2, h3, List.count_cons]

/-- On every run whose session setup succeeds, `logout` is in the
trace. -/
theorem logout_mem_runMain (w : World) (h : w.loginOk = true)
    (h2 : w.selectOk = true) (h3 : w.searchOk = true) :
    Ev.logout ∈ runMain w := by
  by_cases hne : w.unread = []
  · simp [runMain, h, h2, h3, hne]
  · simp [runMain, h, h2, h3, hne]

/-- Claim C2: for a message whose dispatch completed with HTTP status
`s`, the mark-read (`store`) command is issued for it exactly when
`s = 200`; with any other status it is not issued, and in all cases the
run still fetches every unread message and still logs out (the loop is
not aborted). -/
theorem C2_mark_read_iff_200 :
    ∀ (w : World) (n p s : Nat),
      w.loginOk = true → w.selectOk = true → w.searchOk = true →
      n ∈ w.unread →
      w.fetchDecode n = Except.ok () →
      w.preflightR n = Except.ok p →
      w.postR n = Except.ok s →
      ((Ev.store n ∈ runMain w) ↔ s = 200) ∧
      Ev.logout ∈ runMain w ∧
      (∀ m, m ∈ w.unread → Ev.fetch m ∈ runMain w) := by
  intro w n p s hl hsel hsea hn hf hp hq
  refine ⟨⟨?_, ?_⟩, logout_mem_runMain w hl hsel hsea, ?_⟩
  · intro hst
    rw [store_mem_runMain_iff w n hl hsel hsea] at hst
    rcases hst with ⟨m, hm, hmem⟩
    rw [store_mem_perMsg_iff] at hmem
    rcases hmem with ⟨hnm, _, _, h200⟩
    subst hnm
    rw [hq] at h200
    exact Except.ok.inj h200
  · intro hs
    subst hs
    apply mem_runMain_of_perMsg w hl hsel hsea n hn
    rw [store_mem_perMsg_iff]
    exact ⟨rfl, hf, ⟨p, hp⟩, hq⟩
  · intro m hm
    exact mem_runMain_of_perMsg w hl hsel hsea m hm _
      (fetch_mem_perMsg_self w m)

/-- Witness for C2 on the two-message run `wDemo` (message 2 gets a 500
response: no `store`, but the run completes). -/
theorem C2_mark_read_iff_200_witness :
    ((Ev.store 2 ∈ runMain wDemo) ↔ (500 : Nat) = 200) ∧
    Ev.logout ∈ runMain wDemo ∧ Ev.fetch 1 ∈ runMain wDemo := by
  have h := C2_mark_read_iff_200 wDemo 2 204 500 rfl rfl rfl (by decide)
    rfl rfl rfl
  exact ⟨h.1, h.2.1, h.2.2 1 (by decide)⟩

/-- Claim C3 counterexample: on a run whose login fails, `logout` is
never invoked (the claim requires exactly one invocation on every run
path); the process just aborts. -/
theorem C3_login_fail_no_logout :
    (runMain wLoginFail).count Ev.logout = 0 ∧
    Ev.aborted 1 ∈ runMain wLoginFail := by
  decide

/-- Claim C3 as amended: `logout` is invoked exactly once on every run
whose session setup (login, select-inbox, search-unseen) completes,
whatever happens inside the per-message loop; when login fails, or when
select or search raises after it, the run aborts by `sys.exit(1)`
without any logout. -/
theorem C3_logout_once_when_setup_ok :
    (∀ w : World, w.loginOk = true → w.selectOk = true →
        w.searchOk = true → (runMain w).count Ev.logout = 1) ∧
    (∀ w : World, w.loginOk = false → (runMain w).count Ev.logout = 0) ∧
    (∀ w : World, w.loginOk = true → w.selectOk = false →
        (runMain w).count Ev.logout = 0) ∧
    (∀ w : World, w.loginOk = true → w.selectOk = true →
        w.searchOk = false → (runMain w).count Ev.logout = 0) :=
  ⟨count_logout_runMain, count_logout_login_fail,
   count_logout_select_fail, count_logout_search_fail⟩

/-- Witness for C3 on the run `wDemo`. -/
theorem C3_logout_once_witness : (runMain wDemo).count Ev.logout = 1 :=
  C3_logout_once_when_setup_ok.1 wDemo rfl rfl rfl

/-- Claim C9: when the `store` (mark-read) call raises for a message
whose dispatch returned 200, the per-message handler absorbs the error:
the store was attempted, the success print does not happen, every other
unread message is still fetched, and the run still logs out exactly
once. -/
theorem C9_store_failure_contained :
    ∀ (w : World) (n p : Nat),
      w.loginOk = true → w.selectOk = true → w.searchOk = true →
      n ∈ w.unread →
      w.fetchDecode n = Except.ok () →
      w.preflightR n = Except.ok p →
      w.postR n = Except.ok 200 →
      w.storeR n = Except.error () →
      Ev.store n ∈ runMain w ∧
      Ev.marked n ∉ runMain w ∧
      (∀ m, m ∈ w.unread → Ev.fetch m ∈ runMain w) ∧
      (runMain w).count Ev.logout = 1 := by
  intro w n p hl hsel hsea hn hf hp hq hst
  refine ⟨?_, ?_, ?_, count_logout_runMain w hl hsel hsea⟩
  · apply mem_runMain_of_perMsg w hl hsel hsea n hn
    rw [store_mem_perMsg_iff]
    exact ⟨rfl, hf, ⟨p, hp⟩, hq⟩
  · intro hmk
    rw [marked_mem_runMain_iff w n hl hsel hsea] at hmk
    rcases hmk with ⟨m, hm, hmem⟩
    rw [marked_mem_perMsg_iff] at hmem
    rcases hmem with ⟨hnm, _, _, _, hok⟩
    subst hnm
    rw [hst] at hok
    simp at hok
  · intro m hm
    exact mem_runMain_of_perMsg w hl hsel hsea m hm _
      (fetch_mem_perMsg_self w m)

/-- Witness for C9 on the run `wStoreFail` (store raises for message 1
after a 200 dispatch; message 2 is still processed). -/
theorem C9_store_failure_witness :
    Ev.store 1 ∈ runMain wStoreFail ∧
    Ev.marked 1 ∉ runMain wStoreFail ∧
    Ev.fetch 2 ∈ runMain wStoreFail ∧
    (runMain wStoreFail).count Ev.logout = 1 := by
  have h := C9_store_failure_contained wStoreFail 1 204 rfl rfl rfl
    (by decide) rfl rfl rfl rfl
  exact ⟨h.1, h.2.1, h.2.2.1 2 (by decide), h.2.2.2⟩
